import Mathlib

/-!
A shallow embedding of `descript2-memcached` (`src/index.js`): a memcached
caching adapter with key normalization (SHA-512 over a generation-tagged key),
a read deadline racing the transport callback, a process-wide connection
pool keyed by `JSON.stringify(options)`, and an event/logging taxonomy.
External collaborators (the `memcached` transport, `JSON.parse`/
`JSON.stringify`, `contimer`, the logger) are modelled at the interfaces
the adapter uses, as the spec prescribes.
-/

namespace DescriptMemcached

/-! ## JavaScript-style values and objects

Configuration objects (`options`) are ordered field lists, as in JS, where
property insertion order is observable through `JSON.stringify`. -/

mutual

inductive JSValue : Type where
  | str : String → JSValue
  | num : Int → JSValue
  | bool : Bool → JSValue
  | null : JSValue
  | obj : JSFields → JSValue

inductive JSFields : Type where
  | nil : JSFields
  | cons : String → JSValue → JSFields → JSFields

end

/-- Escape one character the way `JSON.stringify` escapes string contents
(quotes and backslashes; other characters in our inputs need no escape). -/
def jsEscapeChar (c : Char) : String :=
  if c = '"' then "\\\"" else if c = '\\' then "\\\\" else String.singleton c

def jsEscape (s : String) : String :=
  String.join (s.data.map jsEscapeChar)

mutual

/-- Modelled from the spec: `JSON.stringify` (a JS builtin used at
src/index.js:28), rendering fields in insertion order. -/
def jsonStringify : JSValue → String
  | .str s => "\"" ++ jsEscape s ++ "\""
  | .num n => toString n
  | .bool b => if b then "true" else "false"
  | .null => "null"
  | .obj fs => "\x7b" ++ stringifyFields fs true ++ "\x7d"

def stringifyFields : JSFields → Bool → String
  | .nil, _ => ""
  | .cons k v rest, first =>
      (if first then "" else ",") ++ "\"" ++ jsEscape k ++ "\":" ++
        jsonStringify v ++ stringifyFields rest false

end

mutual

/-- Structural (order-sensitive) equality test on values. -/
def beqVal : JSValue → JSValue → Bool
  | .str a, .str b => a == b
  | .num a, .num b => a == b
  | .bool a, .bool b => a == b
  | .null, .null => true
  | .obj a, .obj b => beqFields a b
  | _, _ => false

def beqFields : JSFields → JSFields → Bool
  | .nil, .nil => true
  | .cons k v r, .cons k2 v2 r2 => k == k2 && beqVal v v2 && beqFields r r2
  | _, _ => false

end

/-- Lexicographic comparison of char lists by code point. -/
def charListLt : List Char → List Char → Bool
  | [], [] => false
  | [], _ :: _ => true
  | _ :: _, [] => false
  | c1 :: r1, c2 :: r2 =>
      if c1.toNat < c2.toNat then true
      else if c2.toNat < c1.toNat then false
      else charListLt r1 r2

def strLtb (a b : String) : Bool := charListLt a.data b.data

/-- Insert a field into a key-sorted field list (insertion sort step). -/
def insertField (k : String) (v : JSValue) : JSFields → JSFields
  | .nil => .cons k v .nil
  | .cons k2 v2 rest =>
      if strLtb k k2 then .cons k v (.cons k2 v2 rest)
      else .cons k2 v2 (insertField k v rest)

/-- Sort a field list by key (insertion sort). -/
def sortFields : JSFields → JSFields
  | .nil => .nil
  | .cons k v rest => insertField k v (sortFields rest)

mutual

/-- Key-sort every object in a value, recursively. -/
def normVal : JSValue → JSValue
  | .obj fs => .obj (sortFields (normFields fs))
  | v => v

def normFields : JSFields → JSFields
  | .nil => .nil
  | .cons k v rest => .cons k (normVal v) (normFields rest)

end

/-- The notion of structural (deep) equality of configuration used by the
spec: field order is irrelevant, field names and values must agree.
Defined from the words of the spec (structurally equal, deep-equal
configuration), to be compared with the fingerprint-based pooling the
code performs. -/
def specDeepEq (a b : JSValue) : Bool :=
  beqVal (normVal a) (normVal b)

/-- Whether the object has property `k` (the `in`-style existence test). -/
def JSFields.hasKey : JSFields → String → Bool
  | .nil, _ => false
  | .cons k2 _ rest, k => k == k2 || rest.hasKey k

/-- Overwrite the value of an existing property, keeping its position. -/
def JSFields.setKey : JSFields → String → JSValue → JSFields
  | .nil, _, _ => .nil
  | .cons k2 v2 rest, k, v =>
      if k == k2 then .cons k2 v rest else .cons k2 v2 (rest.setKey k v)

/-- Append a new property at the end. -/
def JSFields.snoc : JSFields → String → JSValue → JSFields
  | .nil, k, v => .cons k v .nil
  | .cons k2 v2 rest, k, v => .cons k2 v2 (rest.snoc k v)

/-- Property read, `obj[k]`: `none` models JS `undefined`. -/
def JSFields.getKey : JSFields → String → Option JSValue
  | .nil, _ => none
  | .cons k2 v rest, k => if k == k2 then some v else rest.getKey k

/-- One `Object.assign` step for a single source property: overwrite in
place when the key exists, else append (JS property-order semantics). -/
def assignOne (fs : JSFields) (k : String) (v : JSValue) : JSFields :=
  if fs.hasKey k then fs.setKey k v else fs.snoc k v

/-- JS field-order semantics of merging `overlay` into `base`, as
performed by the assign call at src/index.js:13. -/
def objectAssign : JSFields → JSFields → JSFields
  | base, .nil => base
  | base, .cons k v rest => objectAssign (assignOne base k v) rest

/-! ## The event-name table (src/index.js:267-283)

Transcribed exactly, including the value of `MEMCACHED_WRITE_START`,
which the source assigns the string MEMCACHED_READ_START. -/

structure EventNames where
  MEMCACHED_INITIALIZED : String
  MEMCACHED_JSON_PARSING_FAILED : String
  MEMCACHED_JSON_STRINGIFY_FAILED : String
  MEMCACHED_READ_DONE : String
  MEMCACHED_READ_ERROR : String
  MEMCACHED_READ_KEY_NOT_FOUND : String
  MEMCACHED_READ_START : String
  MEMCACHED_READ_TIMEOUT : String
  MEMCACHED_WRITE_DONE : String
  MEMCACHED_WRITE_ERROR : String
  MEMCACHED_WRITE_FAILED : String
  MEMCACHED_WRITE_START : String

def EVENT : EventNames where
  MEMCACHED_INITIALIZED := "MEMCACHED_INITIALIZED"
  MEMCACHED_JSON_PARSING_FAILED := "MEMCACHED_JSON_PARSING_FAILED"
  MEMCACHED_JSON_STRINGIFY_FAILED := "MEMCACHED_JSON_STRINGIFY_FAILED"
  MEMCACHED_READ_DONE := "MEMCACHED_READ_DONE"
  MEMCACHED_READ_ERROR := "MEMCACHED_READ_ERROR"
  MEMCACHED_READ_KEY_NOT_FOUND := "MEMCACHED_READ_KEY_NOT_FOUND"
  MEMCACHED_READ_START := "MEMCACHED_READ_START"
  MEMCACHED_READ_TIMEOUT := "MEMCACHED_READ_TIMEOUT"
  MEMCACHED_WRITE_DONE := "MEMCACHED_WRITE_DONE"
  MEMCACHED_WRITE_ERROR := "MEMCACHED_WRITE_ERROR"
  MEMCACHED_WRITE_FAILED := "MEMCACHED_WRITE_FAILED"
  MEMCACHED_WRITE_START := "MEMCACHED_READ_START"

/-! ## The connection pool and the constructor (src/index.js:8, 12-42) -/

/-- A transport-client instance (`new Memcached(servers, memcachedOptions)`).
The `id` gives instance identity (two `new` calls yield two instances);
`servers` and `memcachedOptions` record the construction arguments. -/
structure MemcachedClient where
  id : Nat
  servers : Option JSValue
  memcachedOptions : Option JSValue

/-- The module-level `POOL` object plus an allocation counter giving
fresh identities to newly constructed transport clients. -/
structure PoolState where
  entries : List (String × MemcachedClient)
  nextId : Nat

def emptyPool : PoolState := ⟨[], 0⟩

/-- Association lookup, the JS object property read `POOL[optionsKey]`. -/
def assocFind {β : Type} (k : String) : List (String × β) → Option β
  | [] => none
  | (a, c) :: rest => if k = a then some c else assocFind k rest

def poolLookup (p : PoolState) (k : String) : Option MemcachedClient :=
  assocFind k p.entries

/-- The adapter object: merged `this._options`, logger presence, and the
pooled `this._client`. -/
structure Adapter where
  options : JSFields
  hasLogger : Bool
  client : MemcachedClient

/-- The `MEMCACHED_INITIALIZED` event payload (no request context). -/
structure InitEvent where
  type : String
  options : JSFields

/-- The defaults merged in the constructor (src/index.js:13-18). -/
def defaultOptions : JSFields :=
  .cons "defaultKeyTTL" (.num 86400)
    (.cons "generation" (.num 1)
      (.cons "readTimeout" (.num 100)
        (.cons "memcachedOptions" (.obj .nil) .nil)))

/-- The constructor (src/index.js:12-42): merge defaults into
`this._options`, fingerprint the RAW caller options with
`JSON.stringify(options)`, reuse the pooled client when the fingerprint
is present, otherwise construct a client from `options.servers` and
`options.memcachedOptions`, register it and emit `MEMCACHED_INITIALIZED`
(through `_log`, so only when a logger is present). The constructor
performs no validation of `options`. -/
def adapterNew (opts : JSFields) (hasLogger : Bool) (pool : PoolState) :
    Adapter × PoolState × List InitEvent :=
  let merged := objectAssign defaultOptions opts
  let optionsKey := jsonStringify (.obj opts)
  match poolLookup pool optionsKey with
  | some client => (⟨merged, hasLogger, client⟩, pool, [])
  | none =>
      let client : MemcachedClient :=
        ⟨pool.nextId, opts.getKey "servers", opts.getKey "memcachedOptions"⟩
      let pool' : PoolState := ⟨pool.entries ++ [(optionsKey, client)], pool.nextId + 1⟩
      let evs := if hasLogger then [⟨EVENT.MEMCACHED_INITIALIZED, opts⟩] else []
      (⟨merged, hasLogger, client⟩, pool', evs)

/-! ## Events emitted by `get`/`set` (src/index.js:44-245)

A timer measurement is either a real `contimer` stop value or the literal
empty object `{}` used at src/index.js:188. The claims constrain which
timers an event carries, not the measured durations. -/

inductive TimerV : Type where
  | empty
  | measured
deriving DecidableEq

structure Timers where
  network : TimerV
  total : TimerV
deriving DecidableEq

/-- An event `data` payload: either a raw/serialized string (read payloads,
`json` in `MEMCACHED_WRITE_DONE`) or the value from the caller (the
offending value in `MEMCACHED_JSON_STRINGIFY_FAILED`). -/
inductive EvData (α : Type) : Type where
  | raw : String → EvData α
  | val : α → EvData α

/-- A logged event: `type` plus the optional fields the source attaches. -/
structure Event (α : Type) : Type where
  type : String
  key : Option String
  normalizedKey : Option String
  data : Option (EvData α)
  errorMsg : Option String
  timers : Option Timers

/-- The helper at src/index.js:260-264: deliver an event to the logger
only when one is present. The log is modelled as the list of delivered
events. -/
def logIf {α : Type} (hasLogger : Bool) (log : List (Event α)) (e : Event α) :
    List (Event α) :=
  if hasLogger then log ++ [e] else log

/-! ## `get` (src/index.js:44-159) -/

/-- How a `get` promise settles: `resolve(parsedValue)` or
`reject(de.error({id}))`. -/
inductive GetResult (α : Type) : Type where
  | success : α → GetResult α
  | failure : String → GetResult α

def bothMeasured : Timers := ⟨.measured, .measured⟩

def readStartEvent {α : Type} (key nk : String) : Event α :=
  ⟨EVENT.MEMCACHED_READ_START, some key, some nk, none, none, none⟩

def timeoutEvent {α : Type} (key nk : String) : Event α :=
  ⟨EVENT.MEMCACHED_READ_TIMEOUT, some key, some nk, none, none, some bothMeasured⟩

/-- The transport-callback dispatch (src/index.js:88-156), run when the
deadline has not fired: `error` truthy → `MEMCACHED_READ_ERROR`; `!data`
(absent or empty string) → `MEMCACHED_READ_KEY_NOT_FOUND`; present data
that fails to parse → `MEMCACHED_JSON_PARSING_FAILED` with the raw payload
and the error; present data that parses → resolve with the parsed value
and `MEMCACHED_READ_DONE` with the payload and both timers. `JSON.parse`
is the external deserializer, passed in as `parse`. -/
def getDispatch {α : Type} (parse : String → Except String α) (key nk : String) :
    Option String → Option String → GetResult α × Event α
  | some e, _ =>
      (.failure EVENT.MEMCACHED_READ_ERROR,
       ⟨EVENT.MEMCACHED_READ_ERROR, some key, some nk, none, some e, some bothMeasured⟩)
  | none, none =>
      (.failure EVENT.MEMCACHED_READ_KEY_NOT_FOUND,
       ⟨EVENT.MEMCACHED_READ_KEY_NOT_FOUND, some key, some nk, none, none, some bothMeasured⟩)
  | none, some s =>
      if s = "" then
        (.failure EVENT.MEMCACHED_READ_KEY_NOT_FOUND,
         ⟨EVENT.MEMCACHED_READ_KEY_NOT_FOUND, some key, some nk, none, none, some bothMeasured⟩)
      else
        match parse s with
        | .error e =>
            (.failure EVENT.MEMCACHED_JSON_PARSING_FAILED,
             ⟨EVENT.MEMCACHED_JSON_PARSING_FAILED, some key, some nk,
              some (.raw s), some e, some bothMeasured⟩)
        | .ok v =>
            (.success v,
             ⟨EVENT.MEMCACHED_READ_DONE, some key, some nk,
              some (.raw s), none, some bothMeasured⟩)

/-- The state of the promise executor of one `get` invocation: the `isTimeout`
guard (src/index.js:57), whether the deadline timer is still pending
(`clearTimeout` at src/index.js:86 cancels it; firing consumes it), the
settled promise result, and the delivered log. -/
structure GetState (α : Type) : Type where
  isTimeout : Bool
  timerActive : Bool
  settled : Option (GetResult α)
  log : List (Event α)

/-- The two competing completions inside one `get` call. -/
inductive GetAction : Type where
  | timerFire
  | transportCallback : Option String → Option String → GetAction

/-- Promise single-settlement: a second `resolve`/`reject` is a no-op. -/
def settleOnce {α : Type} (old : Option (GetResult α)) (r : GetResult α) :
    Option (GetResult α) :=
  match old with
  | some r0 => some r0
  | none => some r

/-- One scheduler step of the `get` executor. The deadline callback
(src/index.js:59-78) runs only while the timer is pending: it sets the
`isTimeout` guard, logs `MEMCACHED_READ_TIMEOUT` and rejects. The
transport callback (src/index.js:80-157) returns immediately when the
guard is set; otherwise it cancels the timer and settles per the
dispatch. -/
def getStep {α : Type} (parse : String → Except String α) (hasLogger : Bool)
    (key nk : String) (s : GetState α) : GetAction → GetState α
  | .timerFire =>
      if s.timerActive then
        { isTimeout := true, timerActive := false,
          settled := settleOnce s.settled (.failure EVENT.MEMCACHED_READ_TIMEOUT),
          log := logIf hasLogger s.log (timeoutEvent key nk) }
      else s
  | .transportCallback e d =>
      if s.isTimeout then s
      else
        let rd := getDispatch parse key nk e d
        { isTimeout := s.isTimeout, timerActive := false,
          settled := settleOnce s.settled rd.1,
          log := logIf hasLogger s.log rd.2 }

/-- The initial executor state: `MEMCACHED_READ_START` logged, the
deadline timer armed, nothing settled (src/index.js:47-78). -/
def getInit {α : Type} (hasLogger : Bool) (key nk : String) : GetState α :=
  ⟨false, true, none, logIf hasLogger [] (readStartEvent key nk)⟩

/-- Run one `get` invocation under a given interleaving of the two
completions. -/
def runGet {α : Type} (parse : String → Except String α) (hasLogger : Bool)
    (key nk : String) (acts : List GetAction) : GetState α :=
  acts.foldl (getStep parse hasLogger key nk) (getInit hasLogger key nk)

/-! ## `set` (src/index.js:161-245) -/

/-- How a `set` invocation returns: `noPromise` models the bare `return;`
for an undefined value (src/index.js:162-164); otherwise the returned
promise rejects with `de.error({id})` or resolves with no value. -/
inductive SetOutcome : Type where
  | noPromise
  | rejected : String → SetOutcome
  | resolved

/-- One transport write `this._client.set(normalizedKey, json, maxage, cb)`
(src/index.js:200). -/
structure SetCall : Type where
  normalizedKey : String
  json : String
  maxage : Int

/-- The observable outcome of one `set` invocation. -/
structure SetRun (α : Type) : Type where
  outcome : SetOutcome
  log : List (Event α)
  calls : List SetCall

def writeStartEvent {α : Type} (key nk : String) : Event α :=
  ⟨EVENT.MEMCACHED_WRITE_START, some key, some nk, none, none, none⟩

/-- One `set` invocation (src/index.js:161-245), with the external
serializer (`JSON.stringify`) passed in as `stringify` and the arguments
`(error, done)` of the transport write callback supplied by the environment:
undefined value → bare return, no event, no call; serialization failure →
`MEMCACHED_JSON_STRINGIFY_FAILED` (offending value, error, empty network
timer), reject, no call; otherwise one transport write, then
`MEMCACHED_WRITE_ERROR` / `MEMCACHED_WRITE_FAILED` / `MEMCACHED_WRITE_DONE`
by the `(error, done)` the callback receives. -/
def setRun {α : Type} (stringify : α → Except String String) (hasLogger : Bool)
    (key nk : String) (value : Option α) (maxage : Int)
    (respError : Option String) (respDone : Bool) : SetRun α :=
  match value with
  | none => ⟨.noPromise, [], []⟩
  | some v =>
      let log0 := logIf hasLogger [] (writeStartEvent key nk)
      match stringify v with
      | .error e =>
          ⟨.rejected EVENT.MEMCACHED_JSON_STRINGIFY_FAILED,
           logIf hasLogger log0
             ⟨EVENT.MEMCACHED_JSON_STRINGIFY_FAILED, some key, some nk,
              some (.val v), some e, some ⟨.empty, .measured⟩⟩,
           []⟩
      | .ok json =>
          let call : SetCall := ⟨nk, json, maxage⟩
          match respError, respDone with
          | some e, _ =>
              ⟨.rejected EVENT.MEMCACHED_WRITE_ERROR,
               logIf hasLogger log0
                 ⟨EVENT.MEMCACHED_WRITE_ERROR, some key, some nk,
                  none, some e, some bothMeasured⟩,
               [call]⟩
          | none, false =>
              ⟨.rejected EVENT.MEMCACHED_WRITE_FAILED,
               logIf hasLogger log0
                 ⟨EVENT.MEMCACHED_WRITE_FAILED, some key, some nk,
                  none, none, some bothMeasured⟩,
               [call]⟩
          | none, true =>
              ⟨.resolved,
               logIf hasLogger log0
                 ⟨EVENT.MEMCACHED_WRITE_DONE, some key, some nk,
                  some (.raw json), none, some bothMeasured⟩,
               [call]⟩

/-! ## Key normalization (src/index.js:252-258)

The function hashes the generation-tagged key with SHA-512 and hex
encoding, through createHash sha512, an update with the utf8 bytes and a
hex digest. The crypto module is external; SHA-512 below is modelled
from the spec (compute a 512-bit cryptographic hash, SHA-512, over the
UTF-8 bytes and render as lowercase hexadecimal), following FIPS 180-4. -/

/-- The modulus `2 ^ 64` of SHA-512 word arithmetic. -/
def w64 : Nat := 18446744073709551616

/-- Rotate right on 64-bit words. -/
def rotr (n x : Nat) : Nat := ((x >>> n) ||| (x <<< (64 - n))) % w64

/-- Complement on 64-bit words (inputs are below `2 ^ 64` wherever it is
used). -/
def wnot (x : Nat) : Nat := (w64 - 1) ^^^ x

def bSigma0 (x : Nat) : Nat := rotr 28 x ^^^ rotr 34 x ^^^ rotr 39 x
def bSigma1 (x : Nat) : Nat := rotr 14 x ^^^ rotr 18 x ^^^ rotr 41 x
def sSigma0 (x : Nat) : Nat := rotr 1 x ^^^ rotr 8 x ^^^ (x >>> 7)
def sSigma1 (x : Nat) : Nat := rotr 19 x ^^^ rotr 61 x ^^^ (x >>> 6)
def chFn (x y z : Nat) : Nat := (x &&& y) ^^^ (wnot x &&& z)
def majFn (x y z : Nat) : Nat := (x &&& y) ^^^ (x &&& z) ^^^ (y &&& z)

/-- The 80 SHA-512 round constants (FIPS 180-4 §4.2.3), in decimal. -/
def roundK : List Nat := [
  4794697086780616226, 8158064640168781261, 13096744586834688815, 16840607885511220156,
  4131703408338449720, 6480981068601479193, 10538285296894168987, 12329834152419229976,
  15566598209576043074, 1334009975649890238, 2608012711638119052, 6128411473006802146,
  8268148722764581231, 9286055187155687089, 11230858885718282805, 13951009754708518548,
  16472876342353939154, 17275323862435702243, 1135362057144423861, 2597628984639134821,
  3308224258029322869, 5365058923640841347, 6679025012923562964, 8573033837759648693,
  10970295158949994411, 12119686244451234320, 12683024718118986047, 13788192230050041572,
  14330467153632333762, 15395433587784984357, 489312712824947311, 1452737877330783856,
  2861767655752347644, 3322285676063803686, 5560940570517711597, 5996557281743188959,
  7280758554555802590, 8532644243296465576, 9350256976987008742, 10552545826968843579,
  11727347734174303076, 12113106623233404929, 14000437183269869457, 14369950271660146224,
  15101387698204529176, 15463397548674623760, 17586052441742319658, 1182934255886127544,
  1847814050463011016, 2177327727835720531, 2830643537854262169, 3796741975233480872,
  4115178125766777443, 5681478168544905931, 6601373596472566643, 7507060721942968483,
  8399075790359081724, 8693463985226723168, 9568029438360202098, 10144078919501101548,
  10430055236837252648, 11840083180663258601, 13761210420658862357, 14299343276471374635,
  14566680578165727644, 15097957966210449927, 16922976911328602910, 17689382322260857208,
  500013540394364858, 748580250866718886, 1242879168328830382, 1977374033974150939,
  2944078676154940804, 3659926193048069267, 4368137639120453308, 4836135668995329356,
  5532061633213252278, 6448918945643986474, 6902733635092675308, 7801388544844847127]

/-- The eight-word hash state. -/
structure H8 : Type where
  a : Nat
  b : Nat
  c : Nat
  d : Nat
  e : Nat
  f : Nat
  g : Nat
  h : Nat

/-- Initial hash value (FIPS 180-4 §5.3.5), in decimal. -/
def hInit : H8 :=
  ⟨7640891576956012808, 13503953896175478587, 4354685564936845355, 11912009170470909681,
   5840696475078001361, 11170449401992604703, 2270897969802886507, 6620516959819538809⟩

def wordAt (ws : List Nat) (i : Nat) : Nat := ws.getD i 0

/-- Extend a 16-word message block by `count` schedule words. -/
def extendW (ws : List Nat) : Nat → List Nat
  | 0 => ws
  | count + 1 =>
      let t := ws.length
      let w := (sSigma1 (wordAt ws (t - 2)) + wordAt ws (t - 7) +
                sSigma0 (wordAt ws (t - 15)) + wordAt ws (t - 16)) % w64
      extendW (ws ++ [w]) count

/-- One SHA-512 compression round. -/
def shaRound (st : H8) (k w : Nat) : H8 :=
  let t1 := (st.h + bSigma1 st.e + chFn st.e st.f st.g + k + w) % w64
  let t2 := (bSigma0 st.a + majFn st.a st.b st.c) % w64
  ⟨(t1 + t2) % w64, st.a, st.b, st.c, (st.d + t1) % w64, st.e, st.f, st.g⟩

/-- Process one 16-word block: 80 rounds, then add into the state. -/
def compressBlock (st : H8) (block : List Nat) : H8 :=
  let ws := extendW block 64
  let fin := (List.zip roundK ws).foldl (fun s kw => shaRound s kw.1 kw.2) st
  ⟨(st.a + fin.a) % w64, (st.b + fin.b) % w64, (st.c + fin.c) % w64,
   (st.d + fin.d) % w64, (st.e + fin.e) % w64, (st.f + fin.f) % w64,
   (st.g + fin.g) % w64, (st.h + fin.h) % w64⟩

/-- The 16-byte big-endian rendering of the bit length. -/
def lenBytes (n : Nat) : List Nat :=
  (List.range 16).map (fun i => (n >>> (8 * (15 - i))) % 256)

/-- SHA-512 padding: `0x80`, zeros, then the 128-bit message bit length. -/
def padMessage (msg : List Nat) : List Nat :=
  let L := msg.length
  let zeros := (128 - ((L + 17) % 128)) % 128
  msg ++ [128] ++ List.replicate zeros 0 ++ lenBytes (8 * L)

/-- Group bytes into 64-bit big-endian words. -/
def bytesToWords : List Nat → List Nat
  | b0 :: b1 :: b2 :: b3 :: b4 :: b5 :: b6 :: b7 :: rest =>
      (((((((b0 * 256 + b1) * 256 + b2) * 256 + b3) * 256 + b4) * 256 + b5) * 256
          + b6) * 256 + b7) :: bytesToWords rest
  | _ => []

/-- Split a word list into 16-word blocks. -/
def toBlocks : List Nat → List (List Nat)
  | [] => []
  | w :: ws => ((w :: ws).take 16) :: toBlocks ((w :: ws).drop 16)
termination_by l => l.length
decreasing_by simp; omega

/-- SHA-512 of a byte string, as the eight-word final state. -/
def sha512Words (msg : List Nat) : H8 :=
  (toBlocks (bytesToWords (padMessage msg))).foldl compressBlock hInit

/-- The digest as a single natural number below `2 ^ 512` (the eight words
concatenated big-endian). -/
def digestNat (st : H8) : Nat :=
  (((((((st.a % w64) * w64 + st.b % w64) * w64 + st.c % w64) * w64 + st.d % w64)
      * w64 + st.e % w64) * w64 + st.f % w64) * w64 + st.g % w64) * w64 + st.h % w64

def hexDigitChar (n : Nat) : Char :=
  if n < 10 then Char.ofNat (48 + n) else Char.ofNat (87 + n)

/-- Fixed-width hexadecimal rendering, most significant digit first. -/
def hexFixed : Nat → Nat → List Char
  | 0, _ => []
  | k + 1, x => hexFixed k (x / 16) ++ [hexDigitChar (x % 16)]

/-- A 512-bit number as 128 lowercase hex characters: the byte-by-byte hex
digest the node API produces equals the fixed-width big-endian hex
rendering of the concatenated digest. -/
def natToHex128 (x : Nat) : String := ⟨hexFixed 128 x⟩

/-- UTF-8 encoding of one code point. -/
def utf8Char (n : Nat) : List Nat :=
  if n < 128 then [n]
  else if n < 2048 then [192 + n / 64, 128 + n % 64]
  else if n < 65536 then [224 + n / 4096, 128 + (n / 64) % 64, 128 + n % 64]
  else [240 + n / 262144, 128 + (n / 4096) % 64, 128 + (n / 64) % 64, 128 + n % 64]

/-- UTF-8 bytes of a string, as hashed by the utf8 update call. -/
def strUtf8 (s : String) : List Nat :=
  s.data.foldr (fun c acc => utf8Char c.toNat ++ acc) []

def sha512Hex (msg : List Nat) : String := natToHex128 (digestNat (sha512Words msg))

def digitChar (n : Nat) : Char := Char.ofNat (48 + n)

/-- Decimal digits of a natural number (the JS rendering of the
non-negative integer `generation` in a template literal). -/
def natDigits (n : Nat) : List Char :=
  if n < 10 then [digitChar n]
  else natDigits (n / 10) ++ [digitChar (n % 10)]
termination_by n
decreasing_by exact Nat.div_lt_self (by omega) (by norm_num)

def natRepr (n : Nat) : String := ⟨natDigits n⟩

/-- The hashed string `` `g${generation}:${key}` `` (src/index.js:253). -/
def encGenKey (generation : Nat) (key : String) : String :=
  "g" ++ natRepr generation ++ ":" ++ key

/-- The key normalization at src/index.js:252-258, with the generation
value the adapter reads from its merged options passed explicitly. -/
def normalizeKey (generation : Nat) (key : String) : String :=
  sha512Hex (strUtf8 (encGenKey generation key))

/-! ## Auxiliary definitions used by the verification statements -/

/-- The five tagged outcomes a `get` invocation can settle with. -/
def isFiveOutcome {α : Type} (r : GetResult α) : Prop :=
  (∃ v, r = .success v) ∨
  r = .failure EVENT.MEMCACHED_READ_TIMEOUT ∨
  r = .failure EVENT.MEMCACHED_READ_ERROR ∨
  r = .failure EVENT.MEMCACHED_READ_KEY_NOT_FOUND ∨
  r = .failure EVENT.MEMCACHED_JSON_PARSING_FAILED

/-- The lowercase hexadecimal alphabet. -/
def lowercaseHexChars : List Char := "0123456789abcdef".data

/-- The components of a `get` executor state that determine settlement
(everything except the delivered log). -/
def GetCoreEq {α : Type} (s1 s2 : GetState α) : Prop :=
  s1.isTimeout = s2.isTimeout ∧ s1.timerActive = s2.timerActive ∧
  s1.settled = s2.settled

/-- Pool sanity: every pooled client id is below the allocation counter,
fingerprints are pairwise distinct (at most one client per fingerprint),
and client ids are pairwise distinct (distinct `new Memcached` calls). -/
def PoolWF (p : PoolState) : Prop :=
  (∀ pr ∈ p.entries, pr.2.id < p.nextId) ∧
  (p.entries.map Prod.fst).Nodup ∧
  (p.entries.map (fun pr => pr.2.id)).Nodup

/-- An options object with servers h:11211 first, then generation 1. -/
def optsServersFirst : JSFields :=
  .cons "servers" (.str "h:11211") (.cons "generation" (.num 1) .nil)

/-- An options object with generation 1 first, then servers h:11211 —
deep-equal to `optsServersFirst`, different property order. -/
def optsGenFirst : JSFields :=
  .cons "generation" (.num 1) (.cons "servers" (.str "h:11211") .nil)

/-- An options object with only servers h:11211. -/
def optsServersOnly : JSFields := .cons "servers" (.str "h:11211") .nil

/-- An options object with servers h:11211 that spells out the default
generation 1, so its effective configuration equals that of
`optsServersOnly`. -/
def optsServersGen1 : JSFields :=
  .cons "servers" (.str "h:11211") (.cons "generation" (.num 1) .nil)

/-- An options object like `optsServersFirst` but with the different
servers value h2:11211. -/
def optsServers2 : JSFields :=
  .cons "servers" (.str "h2:11211") (.cons "generation" (.num 1) .nil)

/-- An options object holding only generation 2, with no servers field. -/
def optsGenOnly : JSFields := .cons "generation" (.num 2) .nil

/-- The digest of the hash input of `normalizeKey` for generation `g`, as
an element of the finite codomain of 512-bit values. -/
def genDigestFin (key : String) (g : Nat) : Fin (2 ^ 512) :=
  ⟨digestNat (sha512Words (strUtf8 (encGenKey g key))), by
    simp only [digestNat, w64]
    omega⟩

/-- Decimal value of a digit list (left fold), inverse of `natDigits`. -/
def digitsVal (cs : List Char) : Nat :=
  cs.foldl (fun a c => 10 * a + (c.toNat - 48)) 0

/-! ## Helper lemmas -/

theorem getStep_coreEq {α : Type} (parse : String → Except String α)
    (l1 l2 : Bool) (key nk : String) {s1 s2 : GetState α}
    (h : GetCoreEq s1 s2) (a : GetAction) :
    GetCoreEq (getStep parse l1 key nk s1 a) (getStep parse l2 key nk s2 a) := by
  obtain ⟨h1, h2, h3⟩ := h
  cases a with
  | timerFire =>
      simp only [getStep, h2, h3]
      by_cases hb : s2.timerActive <;> simp [hb, GetCoreEq, h1, h2, h3]
  | transportCallback e d =>
      simp only [getStep, h1, h3]
      by_cases hb : s2.isTimeout <;> simp [hb, GetCoreEq, h1, h2, h3]

theorem foldl_getStep_coreEq {α : Type} (parse : String → Except String α)
    (l1 l2 : Bool) (key nk : String) (acts : List GetAction)
    {s1 s2 : GetState α} (h : GetCoreEq s1 s2) :
    GetCoreEq (acts.foldl (getStep parse l1 key nk) s1)
      (acts.foldl (getStep parse l2 key nk) s2) := by
  induction acts generalizing s1 s2 with
  | nil => exact h
  | cons a rest ih => exact ih (getStep_coreEq parse l1 l2 key nk h a)

theorem assocFind_append_of_none {β : Type} (k : String) (l1 l2 : List (String × β))
    (h : assocFind k l1 = none) :
    assocFind k (l1 ++ l2) = assocFind k l2 := by
  induction l1 with
  | nil => rfl
  | cons pr rest ih =>
      cases pr with
      | mk a b =>
          by_cases hka : k = a
          · simp [assocFind, hka] at h
          · simp [assocFind, hka] at h ⊢
            exact ih h

theorem not_mem_keys_of_assocFind_none {β : Type} (k : String) (l : List (String × β))
    (h : assocFind k l = none) : k ∉ l.map Prod.fst := by
  induction l with
  | nil => simp
  | cons pr rest ih =>
      cases pr with
      | mk a b =>
          by_cases hka : k = a
          · simp [assocFind, hka] at h
          · simp [assocFind, hka] at h
            simp [hka, ih h]

theorem mem_ids_of_assocFind_some (k : String) (l : List (String × MemcachedClient))
    (c : MemcachedClient) (h : assocFind k l = some c) :
    c.id ∈ l.map (fun pr => pr.2.id) := by
  induction l with
  | nil => simp [assocFind] at h
  | cons pr rest ih =>
      cases pr with
      | mk a b =>
          by_cases hka : k = a
          · simp [assocFind, hka] at h
            simp [h]
          · simp [assocFind, hka] at h
            simp [ih h]

theorem assocFind_ids_ne (l : List (String × MemcachedClient))
    (hnd : (l.map (fun pr => pr.2.id)).Nodup) (k1 k2 : String)
    (c1 c2 : MemcachedClient) (hk : k1 ≠ k2)
    (h1 : assocFind k1 l = some c1) (h2 : assocFind k2 l = some c2) :
    c1.id ≠ c2.id := by
  induction l with
  | nil => simp [assocFind] at h1
  | cons pr rest ih =>
      cases pr with
      | mk a b =>
          rw [List.map_cons, List.nodup_cons] at hnd
          by_cases hk1 : k1 = a
          · by_cases hk2 : k2 = a
            · exact absurd (hk1.trans hk2.symm) hk
            · simp [assocFind, hk1] at h1
              simp [assocFind, hk2] at h2
              subst h1
              intro heq
              exact hnd.1 (heq ▸ mem_ids_of_assocFind_some k2 rest c2 h2)
          · by_cases hk2 : k2 = a
            · simp [assocFind, hk1] at h1
              simp [assocFind, hk2] at h2
              subst h2
              intro heq
              exact hnd.1 (heq ▸ mem_ids_of_assocFind_some k1 rest c1 h1)
            · simp [assocFind, hk1] at h1
              simp [assocFind, hk2] at h2
              exact ih hnd.2 h1 h2

theorem assocFind_append_left {β : Type} (k : String) (l1 l2 : List (String × β))
    (v : β) (h : assocFind k l1 = some v) :
    assocFind k (l1 ++ l2) = some v := by
  induction l1 with
  | nil => simp [assocFind] at h
  | cons pr rest ih =>
      cases pr with
      | mk a b =>
          by_cases hka : k = a
          · simp [assocFind, hka] at h ⊢
            exact h
          · simp [assocFind, hka] at h ⊢
            exact ih h

theorem assocFind_id_lt (l : List (String × MemcachedClient)) (n : Nat)
    (hb : ∀ pr ∈ l, pr.2.id < n) (k : String) (c : MemcachedClient)
    (h : assocFind k l = some c) : c.id < n := by
  obtain ⟨pr, hpr, hid⟩ := List.mem_map.mp (mem_ids_of_assocFind_some k l c h)
  exact hid ▸ hb pr hpr

theorem adapterNew_found (opts : JSFields) (hl : Bool) (p : PoolState)
    (c : MemcachedClient) (h : poolLookup p (jsonStringify (.obj opts)) = some c) :
    adapterNew opts hl p = (⟨objectAssign defaultOptions opts, hl, c⟩, p, []) := by
  simp [adapterNew, h]

theorem adapterNew_fresh (opts : JSFields) (hl : Bool) (p : PoolState)
    (h : poolLookup p (jsonStringify (.obj opts)) = none) :
    adapterNew opts hl p =
      (⟨objectAssign defaultOptions opts, hl,
        ⟨p.nextId, opts.getKey "servers", opts.getKey "memcachedOptions"⟩⟩,
       ⟨p.entries ++ [(jsonStringify (.obj opts),
          ⟨p.nextId, opts.getKey "servers", opts.getKey "memcachedOptions"⟩)],
        p.nextId + 1⟩,
       if hl then [⟨EVENT.MEMCACHED_INITIALIZED, opts⟩] else []) := by
  simp [adapterNew, h]

theorem PoolWF_adapterNew (opts : JSFields) (hl : Bool) (p : PoolState)
    (h : PoolWF p) : PoolWF (adapterNew opts hl p).2.1 := by
  obtain ⟨hb, hkey, hid⟩ := h
  cases hlk : poolLookup p (jsonStringify (.obj opts)) with
  | some c =>
      rw [adapterNew_found opts hl p c hlk]
      exact ⟨hb, hkey, hid⟩
  | none =>
      rw [adapterNew_fresh opts hl p hlk]
      refine ⟨?_, ?_, ?_⟩
      · intro pr hpr
        rcases List.mem_append.mp hpr with hin | hin
        · exact Nat.lt_succ_of_lt (hb pr hin)
        · rw [List.mem_singleton.mp hin]
          exact Nat.lt_succ_self _
      · rw [List.map_append]
        refine hkey.append (by simp) ?_
        intro x hx hmem
        rw [List.mem_singleton.mp hmem] at hx
        exact not_mem_keys_of_assocFind_none _ _ hlk hx
      · rw [List.map_append]
        refine hid.append (by simp) ?_
        intro x hx hmem
        rw [List.mem_singleton.mp hmem] at hx
        obtain ⟨pr, hpr, hprid⟩ := List.mem_map.mp hx
        exact absurd (hprid ▸ hb pr hpr) (Nat.lt_irrefl _)

/-! ## Claim theorems -/

/-- C1: within one `get` invocation, at most one of the deadline timer and
the transport callback settles the result. If the deadline fires first,
the settled result is the `MEMCACHED_READ_TIMEOUT` failure, and a
transport response arriving afterwards changes nothing at all (no event
delivered, the settled result unaltered). If the transport callback runs
first, the timer is cancelled (`timerActive = false`) and a later firing
of the deadline changes nothing. -/
theorem C1_get_race_settles_once {α : Type} (parse : String → Except String α)
    (hasLogger : Bool) (key nk : String) (e d : Option String) :
    ((getStep parse hasLogger key nk (getInit hasLogger key nk) .timerFire).settled
        = some (.failure EVENT.MEMCACHED_READ_TIMEOUT)) ∧
    (getStep parse hasLogger key nk
        (getStep parse hasLogger key nk (getInit hasLogger key nk) .timerFire)
        (.transportCallback e d)
      = getStep parse hasLogger key nk (getInit hasLogger key nk) .timerFire) ∧
    ((getStep parse hasLogger key nk (getInit hasLogger key nk)
        (.transportCallback e d)).timerActive = false) ∧
    (getStep parse hasLogger key nk
        (getStep parse hasLogger key nk (getInit hasLogger key nk)
          (.transportCallback e d))
        .timerFire
      = getStep parse hasLogger key nk (getInit hasLogger key nk)
          (.transportCallback e d)) :=
  ⟨rfl, rfl, rfl, rfl⟩

/-- C4: the transport-callback dispatch of `get` yields exactly the tagged
outcome and event the transport response determines: transport error →
`MEMCACHED_READ_ERROR` failure and event; absent or empty data →
`MEMCACHED_READ_KEY_NOT_FOUND`; present data that fails to deserialize →
`MEMCACHED_JSON_PARSING_FAILED`, the event carrying the raw payload and
the error; present data that deserializes → success with the deserialized
value and `MEMCACHED_READ_DONE` carrying the payload and both timers. In
every case (the deadline path included) the settled result is one of the
five tagged outcomes, never an exception. -/
theorem C4_get_outcome_dispatch {α : Type} (parse : String → Except String α)
    (key nk : String) :
    (∀ e d, getDispatch parse key nk (some e) d =
      (.failure EVENT.MEMCACHED_READ_ERROR,
       ⟨EVENT.MEMCACHED_READ_ERROR, some key, some nk, none, some e, some bothMeasured⟩)) ∧
    (getDispatch parse key nk none none =
      (.failure EVENT.MEMCACHED_READ_KEY_NOT_FOUND,
       ⟨EVENT.MEMCACHED_READ_KEY_NOT_FOUND, some key, some nk, none, none, some bothMeasured⟩)) ∧
    (getDispatch parse key nk none (some "") =
      (.failure EVENT.MEMCACHED_READ_KEY_NOT_FOUND,
       ⟨EVENT.MEMCACHED_READ_KEY_NOT_FOUND, some key, some nk, none, none, some bothMeasured⟩)) ∧
    (∀ s e, s ≠ "" → parse s = .error e →
      getDispatch parse key nk none (some s) =
        (.failure EVENT.MEMCACHED_JSON_PARSING_FAILED,
         ⟨EVENT.MEMCACHED_JSON_PARSING_FAILED, some key, some nk,
          some (.raw s), some e, some bothMeasured⟩)) ∧
    (∀ s v, s ≠ "" → parse s = .ok v →
      getDispatch parse key nk none (some s) =
        (.success v,
         ⟨EVENT.MEMCACHED_READ_DONE, some key, some nk,
          some (.raw s), none, some bothMeasured⟩)) ∧
    (∀ e d, isFiveOutcome ((getDispatch parse key nk e d).1)) ∧
    isFiveOutcome
      ((getStep parse true key nk (getInit true key nk) .timerFire).settled.getD
        (.failure EVENT.MEMCACHED_READ_TIMEOUT)) := by
  refine ⟨fun e d => rfl, rfl, rfl, ?_, ?_, ?_, ?_⟩
  · intro s e hs hp
    simp [getDispatch, hs, hp]
  · intro s v hs hp
    simp [getDispatch, hs, hp]
  · intro e d
    match e, d with
    | some e, d => exact Or.inr (Or.inr (Or.inl rfl))
    | none, none => exact Or.inr (Or.inr (Or.inr (Or.inl rfl)))
    | none, some s =>
        by_cases hs : s = ""
        · subst hs
          exact Or.inr (Or.inr (Or.inr (Or.inl rfl)))
        · rcases hp : parse s with e | v
          · refine Or.inr (Or.inr (Or.inr (Or.inr ?_)))
            simp [getDispatch, hs, hp]
          · refine Or.inl ⟨v, ?_⟩
            simp [getDispatch, hs, hp]
  · exact Or.inr (Or.inl rfl)

/-- C4 witness: a concrete deserializer exercising the parse-failure and
parse-success branches of the dispatch. -/
theorem C4_get_outcome_dispatch_witness :
    ("not-json" ≠ "") ∧
    ((fun s => if s = "42" then Except.ok (42 : Nat) else Except.error "SyntaxError")
        "not-json" = Except.error "SyntaxError") ∧
    (getDispatch (fun s => if s = "42" then Except.ok (42 : Nat) else Except.error "SyntaxError")
        "bad" "nk" none (some "not-json") =
      (.failure EVENT.MEMCACHED_JSON_PARSING_FAILED,
       ⟨EVENT.MEMCACHED_JSON_PARSING_FAILED, some "bad", some "nk",
        some (.raw "not-json"), some "SyntaxError", some bothMeasured⟩)) ∧
    (getDispatch (fun s => if s = "42" then Except.ok (42 : Nat) else Except.error "SyntaxError")
        "user:42" "nk" none (some "42") =
      (.success 42,
       ⟨EVENT.MEMCACHED_READ_DONE, some "user:42", some "nk",
        some (.raw "42"), none, some bothMeasured⟩)) := by
  refine ⟨by decide, rfl, ?_, ?_⟩
  · exact (C4_get_outcome_dispatch _ "bad" "nk").2.2.2.1 "not-json" "SyntaxError"
      (by decide) rfl
  · exact (C4_get_outcome_dispatch _ "user:42" "nk").2.2.2.2.1 "42" 42
      (by decide) rfl

/-- C5: the event table in the source (src/index.js:267-283) assigns the
key `MEMCACHED_WRITE_START` the value MEMCACHED_READ_START, so the twelve
enum members do NOT have pairwise-distinct values: the `WRITE_START`
event a `set` invocation emits carries the same type string as a
`READ_START` event. -/
theorem C5_write_start_value_collides :
    EVENT.MEMCACHED_WRITE_START = EVENT.MEMCACHED_READ_START ∧
    EVENT.MEMCACHED_WRITE_START = "MEMCACHED_READ_START" ∧
    (writeStartEvent (α := Nat) "k" "nk").type = (readStartEvent (α := Nat) "k" "nk").type :=
  ⟨rfl, rfl, rfl⟩

/-- C6: a `set` invocation whose value is the undefined sentinel returns
immediately (a bare `return`, no promise), performing zero transport
calls and emitting zero events — a short-circuit, not an error. -/
theorem C6_set_undefined_short_circuit {α : Type}
    (stringify : α → Except String String) (hasLogger : Bool) (key nk : String)
    (maxage : Int) (re : Option String) (rd : Bool) :
    setRun stringify hasLogger key nk none maxage re rd =
      ⟨.noPromise, [], []⟩ :=
  rfl

/-- C8: a `set` invocation whose value fails to serialize emits the
`MEMCACHED_JSON_STRINGIFY_FAILED` event carrying the offending value and
the error, returns (rejects) with that failure, and performs no transport
call, whether or not a logger is attached. -/
theorem C8_set_stringify_failure {α : Type}
    (stringify : α → Except String String) (key nk : String) (v : α)
    (maxage : Int) (e : String) (re : Option String) (rd : Bool)
    (h : stringify v = .error e) :
    (setRun stringify true key nk (some v) maxage re rd =
      ⟨.rejected EVENT.MEMCACHED_JSON_STRINGIFY_FAILED,
       [writeStartEvent key nk,
        ⟨EVENT.MEMCACHED_JSON_STRINGIFY_FAILED, some key, some nk,
         some (.val v), some e, some ⟨.empty, .measured⟩⟩],
       []⟩) ∧
    (∀ hl, (setRun stringify hl key nk (some v) maxage re rd).calls = [] ∧
      (setRun stringify hl key nk (some v) maxage re rd).outcome =
        .rejected EVENT.MEMCACHED_JSON_STRINGIFY_FAILED) := by
  constructor
  · simp [setRun, h, logIf]
  · intro hl
    constructor <;> simp [setRun, h]

/-- C8 witness: a serializer that always fails (e.g. a circular value). -/
theorem C8_set_stringify_failure_witness :
    ((fun _ : Nat => (Except.error "TypeError" : Except String String)) 7 =
      Except.error "TypeError") ∧
    (setRun (fun _ : Nat => (Except.error "TypeError" : Except String String))
        true "k" "nk" (some 7) 30 none true).calls = [] := by
  refine ⟨rfl, ?_⟩
  exact ((C8_set_stringify_failure _ "k" "nk" 7 30 "TypeError" none true rfl).2 true).1

/-- C9: the result of a `get` or `set` is identical whether a logging
collaborator is supplied or absent — events are observational only. For
`get`, the settled result after any interleaving of timer and transport
completions is the same with and without a logger; for `set`, the outcome
and the transport calls performed are the same. -/
theorem C9_logger_never_affects_result :
    (∀ (α : Type) (parse : String → Except String α) (key nk : String)
        (acts : List GetAction),
      (runGet parse true key nk acts).settled =
        (runGet parse false key nk acts).settled) ∧
    (∀ (α : Type) (stringify : α → Except String String) (key nk : String)
        (value : Option α) (maxage : Int) (re : Option String) (rd : Bool),
      (setRun stringify true key nk value maxage re rd).outcome =
        (setRun stringify false key nk value maxage re rd).outcome ∧
      (setRun stringify true key nk value maxage re rd).calls =
        (setRun stringify false key nk value maxage re rd).calls) := by
  constructor
  · intro α parse key nk acts
    exact (@foldl_getStep_coreEq α parse true false key nk acts
      (getInit true key nk) (getInit false key nk) ⟨rfl, rfl, rfl⟩).2.2
  · intro α stringify key nk value maxage re rd
    cases value with
    | none => exact ⟨rfl, rfl⟩
    | some v =>
        cases hst : stringify v with
        | error e => constructor <;> simp [setRun, hst]
        | ok json =>
            cases re with
            | some e => constructor <;> simp [setRun, hst]
            | none => cases rd <;> (constructor <;> simp [setRun, hst])

/-- C2 counterexample: two adapters constructed with structurally equal
("deep-equal") configuration objects that differ only in property
insertion order do NOT share a pooled transport client: the raw-JSON
fingerprints differ, so a second client is constructed. -/
theorem C2_counterexample_deep_equal_distinct_clients :
    specDeepEq (.obj optsServersFirst) (.obj optsGenFirst) = true ∧
    (adapterNew optsGenFirst false
        (adapterNew optsServersFirst false emptyPool).2.1).1.client.id ≠
      (adapterNew optsServersFirst false emptyPool).1.client.id := by
  constructor
  · decide
  · decide

/-- C2 (amended): pool identity is keyed by the JSON serialization of the
raw options object, not by structural equality. For every fingerprint at most
one transport client exists at any time (an invariant of the empty pool
preserved by every construction); a second adapter whose raw options
serialize identically reuses the pooled entry unchanged and constructs no
new client; and an adapter whose raw options serialize differently (in
particular, one with a different `servers` field) gets a distinct client
instance. -/
theorem C2_pool_identity_by_serialization :
    PoolWF emptyPool ∧
    (∀ opts hl p, PoolWF p → PoolWF (adapterNew opts hl p).2.1) ∧
    (∀ opts1 opts2 hl1 hl2 p,
      jsonStringify (.obj opts1) = jsonStringify (.obj opts2) →
      (adapterNew opts2 hl2 (adapterNew opts1 hl1 p).2.1).1.client =
          (adapterNew opts1 hl1 p).1.client ∧
        (adapterNew opts2 hl2 (adapterNew opts1 hl1 p).2.1).2.1 =
          (adapterNew opts1 hl1 p).2.1) ∧
    (∀ opts1 opts2 hl1 hl2 p, PoolWF p →
      jsonStringify (.obj opts1) ≠ jsonStringify (.obj opts2) →
      (adapterNew opts2 hl2 (adapterNew opts1 hl1 p).2.1).1.client.id ≠
        (adapterNew opts1 hl1 p).1.client.id) := by
  refine ⟨⟨by simp [emptyPool], by simp [emptyPool], by simp [emptyPool]⟩,
    PoolWF_adapterNew, ?_, ?_⟩
  · intro opts1 opts2 hl1 hl2 p hfp
    cases hlk : poolLookup p (jsonStringify (.obj opts1)) with
    | some c =>
        rw [adapterNew_found opts1 hl1 p c hlk,
          adapterNew_found opts2 hl2 p c (hfp ▸ hlk)]
        exact ⟨rfl, rfl⟩
    | none =>
        rw [adapterNew_fresh opts1 hl1 p hlk]
        have hfind : poolLookup
            (⟨p.entries ++ [(jsonStringify (.obj opts1),
              ⟨p.nextId, opts1.getKey "servers", opts1.getKey "memcachedOptions"⟩)],
             p.nextId + 1⟩ : PoolState)
            (jsonStringify (.obj opts2)) =
            some ⟨p.nextId, opts1.getKey "servers", opts1.getKey "memcachedOptions"⟩ := by
          show assocFind _ _ = _
          rw [← hfp, assocFind_append_of_none _ _ _ hlk]
          simp [assocFind]
        rw [adapterNew_found opts2 hl2 _ _ hfind]
        exact ⟨rfl, rfl⟩
  · intro opts1 opts2 hl1 hl2 p hwf hfp
    cases hlk1 : poolLookup p (jsonStringify (.obj opts1)) with
    | some c1 =>
        rw [adapterNew_found opts1 hl1 p c1 hlk1]
        cases hlk2 : poolLookup p (jsonStringify (.obj opts2)) with
        | some c2 =>
            rw [adapterNew_found opts2 hl2 p c2 hlk2]
            exact assocFind_ids_ne p.entries hwf.2.2 _ _ c2 c1 (Ne.symm hfp) hlk2 hlk1
        | none =>
            rw [adapterNew_fresh opts2 hl2 p hlk2]
            exact Ne.symm (Nat.ne_of_lt (assocFind_id_lt p.entries p.nextId hwf.1 _ c1 hlk1))
    | none =>
        rw [adapterNew_fresh opts1 hl1 p hlk1]
        cases hlk2e : assocFind (jsonStringify (.obj opts2)) p.entries with
        | some c2 =>
            have hfind2 : poolLookup
                (⟨p.entries ++ [(jsonStringify (.obj opts1),
                  ⟨p.nextId, opts1.getKey "servers", opts1.getKey "memcachedOptions"⟩)],
                 p.nextId + 1⟩ : PoolState) (jsonStringify (.obj opts2)) = some c2 := by
              show assocFind _ _ = _
              exact assocFind_append_left _ _ _ c2 hlk2e
            rw [adapterNew_found opts2 hl2 _ c2 hfind2]
            exact Nat.ne_of_lt (assocFind_id_lt p.entries p.nextId hwf.1 _ c2 hlk2e)
        | none =>
            have hfind2 : poolLookup
                (⟨p.entries ++ [(jsonStringify (.obj opts1),
                  ⟨p.nextId, opts1.getKey "servers", opts1.getKey "memcachedOptions"⟩)],
                 p.nextId + 1⟩ : PoolState) (jsonStringify (.obj opts2)) = none := by
              show assocFind _ _ = _
              rw [assocFind_append_of_none _ _ _ hlk2e]
              simp [assocFind, Ne.symm hfp]
            rw [adapterNew_fresh opts2 hl2 _ hfind2]
            exact Nat.succ_ne_self p.nextId

/-- C2 witness: a concrete shared-pool run (same raw options twice reuses
client 0) and a concrete different-`servers` run (distinct clients). -/
theorem C2_pool_identity_witness :
    PoolWF emptyPool ∧
    (adapterNew optsServersFirst false
        (adapterNew optsServersFirst true emptyPool).2.1).1.client =
      (adapterNew optsServersFirst true emptyPool).1.client ∧
    jsonStringify (.obj optsServersFirst) ≠ jsonStringify (.obj optsServers2) ∧
    (adapterNew optsServers2 false
        (adapterNew optsServersFirst false emptyPool).2.1).1.client.id ≠
      (adapterNew optsServersFirst false emptyPool).1.client.id := by
  refine ⟨C2_pool_identity_by_serialization.1, ?_, by decide, ?_⟩
  · exact (C2_pool_identity_by_serialization.2.2.1 optsServersFirst optsServersFirst
      true false emptyPool rfl).1
  · exact C2_pool_identity_by_serialization.2.2.2 optsServersFirst optsServers2
      false false emptyPool C2_pool_identity_by_serialization.1 (by decide)

/-- C7 counterexample: constructing an adapter whose configuration lacks
the `servers` field does not fail: the constructor completes, constructs
a transport client whose `servers` argument is undefined, and pools it. -/
theorem C7_counterexample_no_servers_constructs :
    optsGenOnly.getKey "servers" = none ∧
    (adapterNew optsGenOnly false emptyPool).1.client.id = 0 ∧
    (adapterNew optsGenOnly false emptyPool).1.client.servers = none ∧
    (adapterNew optsGenOnly false emptyPool).2.1.entries.length = 1 := by
  exact ⟨rfl, by decide, rfl, by decide⟩

/-- C7 (amended): the constructor performs no validation of `options`:
with no `servers` field it still completes, merging defaults into
`this._options` and (for a fresh fingerprint) constructing and pooling a
transport client whose `servers` construction argument is undefined. -/
theorem C7_no_fail_fast_on_missing_servers (opts : JSFields) (hl : Bool)
    (p : PoolState) (hs : opts.getKey "servers" = none)
    (hfresh : poolLookup p (jsonStringify (.obj opts)) = none) :
    (adapterNew opts hl p).1.client.servers = none ∧
    (adapterNew opts hl p).2.1.entries.length = p.entries.length + 1 ∧
    (adapterNew opts hl p).1.options = objectAssign defaultOptions opts := by
  rw [adapterNew_fresh opts hl p hfresh]
  exact ⟨hs, by simp, rfl⟩

/-- C7 witness: the missing-`servers` configuration `{generation: 2}`
against the empty pool. -/
theorem C7_no_fail_fast_witness :
    optsGenOnly.getKey "servers" = none ∧
    poolLookup emptyPool (jsonStringify (.obj optsGenOnly)) = none ∧
    (adapterNew optsGenOnly true emptyPool).1.client.servers = none := by
  refine ⟨rfl, rfl, ?_⟩
  exact (C7_no_fail_fast_on_missing_servers optsGenOnly true emptyPool rfl rfl).1

/-- C10: the pool fingerprint is the JSON serialization of the raw
caller-supplied options (any newly registered pool key is that raw
serialization, defaults not merged); consequently two adapters with
deep-equal effective configurations whose literal options differ — in
property insertion order, or because one spells out a default the other
omits — receive two distinct transport-client instances. -/
theorem C10_fingerprint_is_raw_serialization :
    (∀ opts hl p,
      (adapterNew opts hl p).2.1.entries.map Prod.fst = p.entries.map Prod.fst ∨
      (adapterNew opts hl p).2.1.entries.map Prod.fst =
        p.entries.map Prod.fst ++ [jsonStringify (.obj opts)]) ∧
    (specDeepEq (.obj (objectAssign defaultOptions optsServersFirst))
        (.obj (objectAssign defaultOptions optsGenFirst)) = true) ∧
    (jsonStringify (.obj optsServersFirst) ≠ jsonStringify (.obj optsGenFirst)) ∧
    ((adapterNew optsGenFirst false
        (adapterNew optsServersFirst false emptyPool).2.1).1.client.id ≠
      (adapterNew optsServersFirst false emptyPool).1.client.id) ∧
    (specDeepEq (.obj (objectAssign defaultOptions optsServersOnly))
        (.obj (objectAssign defaultOptions optsServersGen1)) = true) ∧
    (jsonStringify (.obj optsServersOnly) ≠ jsonStringify (.obj optsServersGen1)) ∧
    ((adapterNew optsServersGen1 false
        (adapterNew optsServersOnly false emptyPool).2.1).1.client.id ≠
      (adapterNew optsServersOnly false emptyPool).1.client.id) := by
  refine ⟨?_, by decide, by decide, by decide, by decide, by decide, by decide⟩
  intro opts hl p
  cases hlk : poolLookup p (jsonStringify (.obj opts)) with
  | some c => exact Or.inl (by rw [adapterNew_found opts hl p c hlk])
  | none =>
      refine Or.inr ?_
      rw [adapterNew_fresh opts hl p hlk]
      simp

theorem hexFixed_length (k : Nat) : ∀ x, (hexFixed k x).length = k := by
  induction k with
  | zero => intro x; rfl
  | succ n ih => intro x; simp [hexFixed, ih]

theorem hexChars_contains_digit :
    ∀ m, m < 16 → lowercaseHexChars.contains (hexDigitChar m) = true := by
  decide

theorem hexFixed_all_hex (k : Nat) :
    ∀ x, (hexFixed k x).all (fun c => lowercaseHexChars.contains c) = true := by
  induction k with
  | zero => intro x; rfl
  | succ n ih =>
      intro x
      rw [hexFixed, List.all_append, Bool.and_eq_true]
      refine ⟨ih _, ?_⟩
      have h16 : x % 16 < 16 := Nat.mod_lt _ (by norm_num)
      simpa using hexChars_contains_digit _ h16

theorem digitsVal_append (cs : List Char) (c : Char) :
    digitsVal (cs ++ [c]) = 10 * digitsVal cs + (c.toNat - 48) := by
  simp [digitsVal, List.foldl_append]

theorem digitChar_toNat (n : Nat) (h : n < 10) : (digitChar n).toNat = 48 + n := by
  interval_cases n <;> rfl

theorem digitsVal_natDigits (n : Nat) : digitsVal (natDigits n) = n := by
  induction n using Nat.strong_induction_on with
  | _ n ih =>
      by_cases h : n < 10
      · rw [natDigits, if_pos h]
        simp [digitsVal, digitChar_toNat n h]
      · rw [natDigits, if_neg h]
        rw [digitsVal_append,
          ih (n / 10) (Nat.div_lt_self (by omega) (by norm_num)),
          digitChar_toNat (n % 10) (Nat.mod_lt _ (by norm_num))]
        omega

theorem natDigits_inj {m n : Nat} (h : natDigits m = natDigits n) : m = n := by
  have hv := digitsVal_natDigits m
  rw [h, digitsVal_natDigits] at hv
  exact hv.symm

theorem encGenKey_gen_inj (k : String) (g1 g2 : Nat) (h : g1 ≠ g2) :
    encGenKey g1 k ≠ encGenKey g2 k := by
  intro heq
  apply h
  have hd := congrArg String.data heq
  simp only [encGenKey, natRepr, String.data_append, List.append_assoc] at hd
  have hd2 : natDigits g1 ++ (':' :: k.data) = natDigits g2 ++ (':' :: k.data) := by
    have := List.append_cancel_left hd
    simpa using this
  exact natDigits_inj (List.append_cancel_right hd2)

/-- C3 counterexample: the universal statement "changing the generation
changes the output of `normalizeKey`" is false: `normalizeKey` maps the
infinitely many generations into the finitely many 512-bit digests, so
two distinct generations share an output (for the empty key, by the
pigeonhole principle — no explicit collision is feasible to exhibit, but
the statement as universally quantified cannot hold). -/
theorem C3_counterexample_generation_collision :
    ¬ (∀ (key : String) (g1 g2 : Nat), g1 ≠ g2 →
        normalizeKey g1 key ≠ normalizeKey g2 key) := by
  intro hcl
  obtain ⟨g1, g2, hne, heq⟩ :=
    Finite.exists_ne_map_eq_of_infinite (fun g : Nat => genDigestFin "" g)
  have hv : ∀ g : Nat, (genDigestFin "" g).val =
      digestNat (sha512Words (strUtf8 (encGenKey g ""))) := fun _ => rfl
  have hn : ∀ g : Nat, normalizeKey g "" =
      natToHex128 (digestNat (sha512Words (strUtf8 (encGenKey g "")))) :=
    fun _ => rfl
  apply hcl "" g1 g2 hne
  rw [hn g1, hn g2, ← hv g1, ← hv g2]
  exact congrArg natToHex128 (congrArg Fin.val heq)

/-- C3 (amended): `normalizeKey` returns the lowercase hexadecimal
rendering of the SHA-512 digest of the UTF-8 bytes of
`"g" + generation + ":" + key`; it is a pure function (repeated calls
yield identical output); its output is always a 128-character string over
the lowercase hexadecimal alphabet; and changing the generation always
changes the string being hashed (the hash input is injective in the
generation for a fixed key) — though the digest itself is not guaranteed
distinct for all generation pairs, SHA-512 having finitely many outputs. -/
theorem C3_normalize_key_amended :
    (∀ g k, normalizeKey g k = sha512Hex (strUtf8 (encGenKey g k))) ∧
    (∀ g k, (normalizeKey g k).length = 128) ∧
    (∀ g k, ((normalizeKey g k).data.all
      (fun c => lowercaseHexChars.contains c)) = true) ∧
    (∀ k g1 g2, g1 ≠ g2 → encGenKey g1 k ≠ encGenKey g2 k) := by
  refine ⟨fun g k => rfl, ?_, ?_, fun k g1 g2 h => encGenKey_gen_inj k g1 g2 h⟩
  · intro g k
    have h1 : (normalizeKey g k).data =
        hexFixed 128 (digestNat (sha512Words (strUtf8 (encGenKey g k)))) := rfl
    have h2 : (normalizeKey g k).length = (normalizeKey g k).data.length := rfl
    rw [h2, h1]
    exact hexFixed_length 128 _
  · intro g k
    have h1 : (normalizeKey g k).data =
        hexFixed 128 (digestNat (sha512Words (strUtf8 (encGenKey g k)))) := rfl
    rw [h1]
    exact hexFixed_all_hex 128 _

/-- C3 witness: distinct generations 1 and 2 with the key `"user:42"`. -/
theorem C3_normalize_key_witness :
    ((1 : Nat) ≠ 2) ∧
    encGenKey 1 "user:42" ≠ encGenKey 2 "user:42" ∧
    (normalizeKey 1 "user:42").length = 128 := by
  refine ⟨by decide, ?_, ?_⟩
  · exact C3_normalize_key_amended.2.2.2 "user:42" 1 2 (by decide)
  · exact C3_normalize_key_amended.2.1 1 "user:42"

end DescriptMemcached
